import Mathlib

/-!
Shallow embedding of the Ruby-VPI relay core:
  src/ext/relay.c  (relay_init, relay_ruby, relay_verilog, relay_ruby_run,
                    ruby_run_handshake)
  src/ext/main.c   (main_init, main_relay_verilog)

The baton is modelled at the level of the two pthread mutexes
`relay__rubyLock` and `relay__verilogLock` (a Bool per lock, true =
locked), together with the phase of each of the two threads.  A handoff
call `relay_ruby` / `relay_verilog` is split into its two primitive
mutex actions exactly as in the source: first the unlock of the other
side's lock, then the (possibly blocking) lock of the caller's own lock.
-/

/-! ### The two gates and the bodies of the handoff operations -/

inductive Gate
| ruby
| verilog
deriving DecidableEq, Repr

inductive MutexOp
| lock (g : Gate)
| unlock (g : Gate)
deriving DecidableEq, Repr

/-- Body of `relay_ruby` in src/ext/relay.c:
`pthread_mutex_unlock(&relay__rubyLock); pthread_mutex_lock(&relay__verilogLock);` -/
def relay_ruby_ops : List MutexOp :=
[MutexOp.unlock Gate.ruby, MutexOp.lock Gate.verilog]

/-- Body of `relay_verilog` in src/ext/relay.c:
`pthread_mutex_unlock(&relay__verilogLock); pthread_mutex_lock(&relay__rubyLock);` -/
def relay_verilog_ops : List MutexOp :=
[MutexOp.unlock Gate.verilog, MutexOp.lock Gate.ruby]

/-- Body of `relay_init` in src/ext/relay.c: both mutexes are initialized
and immediately locked. -/
def relay_init_ops : List MutexOp :=
[MutexOp.lock Gate.ruby, MutexOp.lock Gate.verilog]

/-- Spec-side rendition of `yieldToScript()` (spec section 4.1): release the
script engine's gate, then block the calling simulation thread on the
simulation gate. -/
def yieldToScript_spec (scriptGate simulationGate : Gate) : List MutexOp :=
[MutexOp.unlock scriptGate, MutexOp.lock simulationGate]

/-- Spec-side rendition of `yieldToSimulation()` (spec section 4.1): release
the simulation engine's gate, then block the calling script thread on the
script gate. -/
def yieldToSimulation_spec (scriptGate simulationGate : Gate) : List MutexOp :=
[MutexOp.unlock simulationGate, MutexOp.lock scriptGate]

/-! ### Interleaving semantics of the baton

Each thread is in one of three phases:
* `idle`   - running, never yet woken through its gate (before its first
  completed handoff);
* `wait`   - blocked inside its handoff, on the `pthread_mutex_lock` of
  its own gate, with the unlock of the other gate already performed;
* `active` - running after having been released through its gate, i.e.
  inside an active region in the sense of spec section 8.

The simulation thread only ever calls `relay_ruby`, the script thread only
ever calls `relay_verilog`; each call is split into a yield step (the
unlock, after which the caller sits blocked on its own gate) and a wake
step (the lock acquisition, enabled only while that gate is unlocked). -/

inductive Phase
| idle
| wait
| active
deriving DecidableEq, Fintype, Repr

structure BatonState where
  ruby : Bool
  verilog : Bool
  sim : Phase
  script : Phase
deriving DecidableEq, Fintype, Repr

inductive BatonAct
| simYield
| simWake
| scriptYield
| scriptWake
deriving DecidableEq, Fintype, Repr

/-- One primitive step of the two-thread system built from `relay_ruby`
(simulation side) and `relay_verilog` (script side).  `none` means the
step is not enabled in the given state. -/
def step (s : BatonState) : BatonAct → Option BatonState
| BatonAct.simYield =>
    if s.sim = Phase.wait then none
    else some { s with ruby := false, sim := Phase.wait }
| BatonAct.simWake =>
    if s.sim = Phase.wait ∧ s.verilog = false then
      some { s with verilog := true, sim := Phase.active }
    else none
| BatonAct.scriptYield =>
    if s.script = Phase.wait then none
    else some { s with verilog := false, script := Phase.wait }
| BatonAct.scriptWake =>
    if s.script = Phase.wait ∧ s.ruby = false then
      some { s with ruby := true, script := Phase.active }
    else none

/-- Run a sequence of primitive steps; `none` as soon as a step is not
enabled. -/
def runBaton : BatonState → List BatonAct → Option BatonState
| s, [] => some s
| s, a :: tr =>
  match step s a with
  | some s1 => runBaton s1 tr
  | none => none

/-- The state `relay_init` establishes: both gates locked, neither thread
ever granted a turn. -/
def relay_init_state : BatonState :=
{ ruby := true, verilog := true, sim := Phase.idle, script := Phase.idle }

/-- A steady state in which the simulation side holds the turn: both gates
locked, simulation thread in its active region, script thread blocked in
`relay_verilog` on `relay__rubyLock`. -/
def grantedSimState : BatonState :=
{ ruby := true, verilog := true, sim := Phase.active, script := Phase.wait }

/-- At most one of the two threads is inside an active region. -/
def atMostOneActive (s : BatonState) : Prop :=
¬ (s.sim = Phase.active ∧ s.script = Phase.active)

/-- The mutual-exclusion property exactly as the claim states it: from the
state established by `relay_init`, every interleaving of the two handoffs
keeps at most one thread in an active region. -/
def mutualExclusionFromInit : Prop :=
∀ tr s, runBaton relay_init_state tr = some s → atMostOneActive s

/-- Inductive invariant for the steady alternation: both locks held with
exactly one side active and the other blocked, or one lock transiently
released mid-handoff with both sides blocked. -/
def goodState (s : BatonState) : Bool :=
(s.ruby && s.verilog &&
  ((s.sim == Phase.active && s.script == Phase.wait) ||
   (s.sim == Phase.wait && s.script == Phase.active))) ||
(!s.ruby && s.verilog && s.sim == Phase.wait && s.script == Phase.wait) ||
(s.ruby && !s.verilog && s.sim == Phase.wait && s.script == Phase.wait)

lemma goodState_step : ∀ s a, goodState s = true →
    Option.all goodState (step s a) = true := by
  decide

lemma goodState_runBaton : ∀ (tr : List BatonAct) (s s1 : BatonState),
    goodState s = true → runBaton s tr = some s1 → goodState s1 = true := by
  intro tr
  induction tr with
  | nil =>
      intro s s1 hg hr
      simp only [runBaton] at hr
      cases hr
      exact hg
  | cons a tr ih =>
      intro s s1 hg hr
      simp only [runBaton] at hr
      cases hstep : step s a with
      | none => rw [hstep] at hr; cases hr
      | some s2 =>
          rw [hstep] at hr
          have h2 : goodState s2 = true := by
            have := goodState_step s a hg
            rw [hstep] at this
            simpa [Option.all] using this
          exact ih s2 s1 h2 hr

lemma goodState_atMostOneActive : ∀ s, goodState s = true → atMostOneActive s := by
  unfold atMostOneActive
  decide

/-- Invariant used for the deadlock theorem: the simulation thread sits
blocked on `relay__verilogLock`, which is locked, and only a script-side
`relay_verilog` call could ever unlock it. -/
def simStuck (s : BatonState) : Bool :=
s.verilog && s.sim == Phase.wait

lemma simStuck_step : ∀ s a, a ≠ BatonAct.scriptYield → simStuck s = true →
    Option.all simStuck (step s a) = true := by
  decide

lemma simStuck_runBaton : ∀ (tr : List BatonAct) (s s1 : BatonState),
    BatonAct.scriptYield ∉ tr →
    simStuck s = true → runBaton s tr = some s1 → simStuck s1 = true := by
  intro tr
  induction tr with
  | nil =>
      intro s s1 _ hg hr
      simp only [runBaton] at hr
      cases hr
      exact hg
  | cons a tr ih =>
      intro s s1 hmem hg hr
      simp only [runBaton] at hr
      cases hstep : step s a with
      | none => rw [hstep] at hr; cases hr
      | some s2 =>
          rw [hstep] at hr
          have hne : a ≠ BatonAct.scriptYield := by
            intro h
            exact hmem (by simp [h])
          have h2 : simStuck s2 = true := by
            have := simStuck_step s a hne hg
            rw [hstep] at this
            simpa [Option.all] using this
          exact ih s2 s1 (fun h => hmem (List.mem_cons_of_mem _ h)) h2 hr

/-! ### Argument marshaling: `relay_ruby_run` (src/ext/relay.c lines 93-134)

The C function reads the system-task call handle (`vpi_handle`), iterates
its argument list (`vpi_iterate` / `vpi_scan`), and for each argument
increments `mCount`, grows `mArgs` with `malloc`/`realloc` (guarded only
by `assert`), and stores `strdup` of the argument's string value (not
checked at all).  Allocation outcomes are an explicit oracle so that the
failure paths are part of the model:
* `options`   - success of the `malloc` of the `relay__RubyOptions__def`;
* `arrayOk n` - success of the `malloc`/`realloc` growing `mArgs` to
  capacity `n`;
* `dupOk i`   - success of the `strdup` of the i-th scanned argument
  (0-based); on failure the C code stores the NULL result, modelled as
  `none`. -/

structure AllocOracle where
  options : Bool
  arrayOk : Nat → Bool
  dupOk : Nat → Bool

/-- The argument buffer handed to the spawned thread: `mArgs` holds what
the loop stored (a `strdup` copy, or `none` for a NULL from a failed
`strdup`), `mCount` the number of scanned arguments. -/
structure RubyOptions where
  mArgs : List (Option String)
  mCount : Nat
deriving DecidableEq, Repr

inductive RunOutcome
| fatalExit (msg : String)
| assertFail
| spawned (opts : RubyOptions)
deriving DecidableEq, Repr

/-- The `while ((vArg = vpi_scan(vCallArgs)))` loop: one scanned argument
per element of `src`, in order.  `count` is the current `mCount`, `acc`
the current contents of `mArgs`.  A failed array growth is the `assert`
firing, i.e. abnormal abort (`none`). -/
def captureLoop (oracle : AllocOracle) :
    List String → Nat → List (Option String) →
    Option (List (Option String) × Nat)
| [], count, acc => some (acc, count)
| s :: rest, count, acc =>
  if oracle.arrayOk (count + 1) then
    captureLoop oracle rest (count + 1)
      (acc ++ [if oracle.dupOk count then some s else none])
  else none

/-- `relay_ruby_run`: allocate the options struct (diagnostic + abnormal
exit on failure), then, if the call handle and its argument iterator
exist, run the capture loop; finally spawn the Ruby thread with the
resulting buffer.  `vCall` models whether `vpi_handle(vpiSysTfCall, NULL)`
returned a handle, `vCallArgs` whether `vpi_iterate` returned an iterator
and, if so, the string values that successive `vpi_scan` calls yield. -/
def relay_ruby_run (oracle : AllocOracle) (vCall : Bool)
    (vCallArgs : Option (List String)) : RunOutcome :=
  if oracle.options then
    match captureLoop oracle
        (if vCall then vCallArgs.getD [] else []) 0 [] with
    | some (args, count) => RunOutcome.spawned { mArgs := args, mCount := count }
    | none => RunOutcome.assertFail
  else
    RunOutcome.fatalExit
      "error: unable to allocate memory for Ruby's command-line arguments."

/-- The buffer contents the loop builds when every array growth succeeds:
the i-th slot holds the `strdup` copy of the i-th source string when that
`strdup` succeeded, `none` otherwise. -/
def buildArgs (oracle : AllocOracle) : Nat → List String → List (Option String)
| _, [] => []
| count, s :: rest =>
  (if oracle.dupOk count then some s else none) :: buildArgs oracle (count + 1) rest

lemma captureLoop_eq (oracle : AllocOracle) :
    ∀ (src : List String) (count : Nat) (acc : List (Option String)),
    (∀ k, count < k → k ≤ count + src.length → oracle.arrayOk k = true) →
    captureLoop oracle src count acc =
      some (acc ++ buildArgs oracle count src, count + src.length) := by
  intro src
  induction src with
  | nil => intro count acc _; simp [captureLoop, buildArgs]
  | cons s rest ih =>
      intro count acc har
      have h1 : oracle.arrayOk (count + 1) = true := by
        apply har
        · omega
        · simp only [List.length_cons]
          omega
      have hrest : ∀ k, count + 1 < k → k ≤ count + 1 + rest.length →
          oracle.arrayOk k = true := by
        intro k hk1 hk2
        apply har
        · omega
        · simp only [List.length_cons]
          omega
      have hlen : count + 1 + rest.length = count + (s :: rest).length := by
        simp only [List.length_cons]
        omega
      simp only [captureLoop, h1, if_true, ih (count + 1) _ hrest, buildArgs,
        List.append_assoc, List.singleton_append, hlen]

lemma buildArgs_all_dup (oracle : AllocOracle)
    (h : ∀ i, oracle.dupOk i = true) :
    ∀ (count : Nat) (src : List String),
    buildArgs oracle count src = src.map some := by
  intro count src
  induction src generalizing count with
  | nil => simp [buildArgs]
  | cons s rest ih => simp [buildArgs, h, ih]

/-- "Storage cannot be obtained at some point while marshaling": the
options container, one of the array growths the loop would perform, or
one of the individual string copies. -/
def allocationFails (oracle : AllocOracle) (src : List String) : Prop :=
oracle.options = false ∨
(∃ i, i < src.length ∧ oracle.arrayOk (i + 1) = false) ∨
(∃ i, i < src.length ∧ oracle.dupOk i = false)

/-- Abnormal termination: the diagnostic-plus-`exit(EXIT_FAILURE)` path or
the `assert` abort. -/
def isAbnormal : RunOutcome → Bool
| RunOutcome.fatalExit _ => true
| RunOutcome.assertFail => true
| RunOutcome.spawned _ => false

/-- The error-handling discipline the claim asserts: any allocation
failure while marshaling leads to abnormal termination. -/
def marshalingFailureFatal : Prop :=
∀ (oracle : AllocOracle) (src : List String),
  allocationFails oracle src →
  isAbnormal (relay_ruby_run oracle true (some src)) = true

/-- Oracle for which every allocation succeeds. -/
def oracleAllOk : AllocOracle :=
{ options := true, arrayOk := fun _ => true, dupOk := fun _ => true }

/-- Oracle for which only the `strdup` of argument 0 fails. -/
def oracleDup0Fails : AllocOracle :=
{ options := true, arrayOk := fun _ => true, dupOk := fun i => !(i == 0) }

/-! ### The spawned thread: `ruby_run_handshake` (src/ext/relay.c lines 64-91)

Modelled as the sequence of externally visible events the thread body
performs, in program order. -/

inductive HEvent
| rubyInit
| rubyInitLoadpath
| swigInit
| rubyOptionsCall (argc : Nat) (argv : List (Option String))
| freeString (i : Nat)
| freeArray
| freeOptions
| rubyRun
| rubyFinalize
deriving DecidableEq, Repr

/-- Event trace of `ruby_run_handshake`: interpreter init, load-path init,
`swig_init`, `ruby_options(argc, argv)`, then `free(argv[i])` for
`i = 0 .. argc-1`, `free(argv)`, `free(pRubyOptions)`, `ruby_run()`,
`ruby_finalize()`. -/
def ruby_run_handshake (opts : RubyOptions) : List HEvent :=
[HEvent.rubyInit, HEvent.rubyInitLoadpath, HEvent.swigInit,
 HEvent.rubyOptionsCall opts.mCount opts.mArgs] ++
(List.range opts.mCount).map HEvent.freeString ++
[HEvent.freeArray, HEvent.freeOptions, HEvent.rubyRun, HEvent.rubyFinalize]

/-- Events that release part of the argument buffer. -/
def isFree : HEvent → Bool
| HEvent.freeString _ => true
| HEvent.freeArray => true
| HEvent.freeOptions => true
| _ => false

/-- Events that reference the argument buffer (consuming or releasing). -/
def refsBuffer : HEvent → Bool
| HEvent.rubyOptionsCall _ _ => true
| HEvent.freeString _ => true
| HEvent.freeArray => true
| HEvent.freeOptions => true
| _ => false

/-! ### `main_init` and `main_relay_verilog` (src/ext/main.c)

`main_init` is modelled as the event trace it produces given the process
environment (a partial map from variable names to values). -/

inductive MEvent
| rubyInit
| rubyInitLoadpath
| initVpi
| defineModuleFunction (name : String)
| getenvRead (name : String)
| rubyScript (file : String)
| loadFile (file : String)
| printMsg (msg : String)
| exitFailure
| rubyRun
| rubyFinalize
deriving DecidableEq, Repr

/-- Event trace of `main_init`: interpreter init, load-path init,
`Init_vpi()`, binding of the two module functions, the single `getenv`
of `RUBYVPI_BOOTSTRAP`, then either (variable set) `ruby_script`,
`rb_load_file`, `ruby_run`, `ruby_finalize`, or (variable unset) the
diagnostic naming `RUBY_VPI__RUBY_BENCH_FILE` followed by
`exit(EXIT_FAILURE)`. -/
def main_init (env : String → Option String) : List MEvent :=
[MEvent.rubyInit, MEvent.rubyInitLoadpath, MEvent.initVpi,
 MEvent.defineModuleFunction "relay_verilog",
 MEvent.defineModuleFunction "relay_ruby_reason",
 MEvent.getenvRead "RUBYVPI_BOOTSTRAP"] ++
match env "RUBYVPI_BOOTSTRAP" with
| some f => [MEvent.rubyScript f, MEvent.loadFile f, MEvent.rubyRun, MEvent.rubyFinalize]
| none =>
  [MEvent.printMsg
     "error: environment variable RUBY_VPI__RUBY_BENCH_FILE is uninitialized.",
   MEvent.exitFailure]

/-- Calls into the baton entry points of relay.c. -/
inductive RelayCall
| relay_ruby_call
| relay_verilog_call
deriving DecidableEq, Repr

/-- The mutex operations each baton entry point performs. -/
def relayCallOps : RelayCall → List MutexOp
| RelayCall.relay_ruby_call => relay_ruby_ops
| RelayCall.relay_verilog_call => relay_verilog_ops

/-- `main_relay_verilog` (src/ext/main.c lines 44-47): calls
`relay_verilog()` and returns its receiver `arSelf`.  Modelled as the
list of baton calls performed paired with the returned value. -/
def main_relay_verilog {α : Type} (arSelf : α) : List RelayCall × α :=
([RelayCall.relay_verilog_call], arSelf)

/-! ### Claim theorems -/

/-- C1 (counterexample): the mutual-exclusion property as stated is false.
From the state `relay_init` establishes (both gates locked, neither side
granted), the interleaving in which the script thread calls
`relay_verilog` once and the simulation thread calls `relay_ruby` once
ends with BOTH threads released through their gates: each side's unlock
frees the gate the other side is about to block on, and both pending
lock acquisitions then succeed. -/
theorem relay_C1_counterexample : ¬ mutualExclusionFromInit := by
  intro h
  have hb := h
    [BatonAct.simYield, BatonAct.scriptYield, BatonAct.simWake, BatonAct.scriptWake]
    { ruby := true, verilog := true, sim := Phase.active, script := Phase.active }
    (by decide)
  exact hb ⟨rfl, rfl⟩

/-- C1 (amended): once a turn has actually been granted - i.e. from any
steady state in which both gates are locked, one thread is inside its
active region and the other is blocked in its handoff - every further
interleaving of `relay_ruby` (simulation side) and `relay_verilog`
(script side) keeps at most one thread in an active region at any
instant. -/
theorem relay_C1_amended : ∀ (tr : List BatonAct) (s : BatonState),
    runBaton grantedSimState tr = some s → atMostOneActive s := by
  intro tr s hr
  exact goodState_atMostOneActive s
    (goodState_runBaton tr grantedSimState s (by decide) hr)

theorem relay_C1_amended_witness :
    atMostOneActive
      { ruby := false, verilog := true, sim := Phase.wait, script := Phase.wait } :=
  relay_C1_amended [BatonAct.simYield] _ (by decide)

/-- C2: `relay_ruby` is exactly the spec's `yieldToScript` - it first
unlocks `relay__rubyLock` (the script side's gate: the gate the script
thread blocks on inside `relay_verilog`) and then blocks on
`relay__verilogLock` (the simulation side's gate); `relay_verilog` is
its exact dual, and the two gates are distinct. -/
theorem relay_C2_dual_handoffs :
    relay_ruby_ops = yieldToScript_spec Gate.ruby Gate.verilog ∧
    relay_verilog_ops = yieldToSimulation_spec Gate.ruby Gate.verilog ∧
    Gate.ruby ≠ Gate.verilog :=
  ⟨rfl, rfl, by decide⟩

lemma simStuck_sim_wait : ∀ s, simStuck s = true → s.sim = Phase.wait := by
  decide

/-- C6: if the simulation thread calls `relay_ruby` and the script thread
never makes an intervening `relay_verilog` call (no script-side yield
step), the simulation thread remains blocked inside `relay_ruby` on
`relay__verilogLock` in every reachable state - the call never returns,
so a second consecutive call never completes either: deadlock by
design. -/
theorem relay_C6_deadlock : ∀ (tr : List BatonAct) (s : BatonState),
    BatonAct.scriptYield ∉ tr →
    runBaton grantedSimState (BatonAct.simYield :: tr) = some s →
    s.sim = Phase.wait := by
  intro tr s hmem hr
  have hr2 : runBaton
      { ruby := false, verilog := true, sim := Phase.wait, script := Phase.wait }
      tr = some s := hr
  exact simStuck_sim_wait s (simStuck_runBaton tr _ s hmem (by decide) hr2)

theorem relay_C6_deadlock_witness :
    ({ ruby := true, verilog := true, sim := Phase.wait, script := Phase.active } :
      BatonState).sim = Phase.wait :=
  relay_C6_deadlock [BatonAct.scriptWake] _ (by decide) (by decide)

/-- C9: `main_relay_verilog` performs exactly one baton operation - the
call to `relay_verilog`, whose body is the yield-to-simulation mutex
sequence - and returns its receiver `arSelf` unchanged. -/
theorem main_C9_relay_verilog : ∀ (α : Type) (arSelf : α),
    (main_relay_verilog arSelf).1 = [RelayCall.relay_verilog_call] ∧
    (main_relay_verilog arSelf).1.length = 1 ∧
    relayCallOps RelayCall.relay_verilog_call = relay_verilog_ops ∧
    (main_relay_verilog arSelf).2 = arSelf := by
  intro α a
  exact ⟨rfl, rfl, rfl, rfl⟩

/-- C3: with every allocation succeeding, the capture loop consumes the
scanned argument sequence exactly once in order and stores a copy of
each element, the spawned thread's option parser receives exactly `k`
byte-identical arguments in the same order, and an empty source - a
missing call handle, a missing argument iterator, or an iterator that
yields nothing - produces a count-0 buffer that `ruby_run_handshake`
processes along its ordinary path. -/
theorem relay_C3_argument_fidelity : ∀ (src : List String) (oracle : AllocOracle),
    oracle.options = true →
    (∀ k, oracle.arrayOk k = true) →
    (∀ i, oracle.dupOk i = true) →
    ∀ (vArgs : Option (List String)),
    relay_ruby_run oracle true (some src) =
      RunOutcome.spawned { mArgs := src.map some, mCount := src.length } ∧
    (src.map some).length = src.length ∧
    HEvent.rubyOptionsCall src.length (src.map some) ∈
      ruby_run_handshake { mArgs := src.map some, mCount := src.length } ∧
    relay_ruby_run oracle false vArgs =
      RunOutcome.spawned { mArgs := [], mCount := 0 } ∧
    relay_ruby_run oracle true none =
      RunOutcome.spawned { mArgs := [], mCount := 0 } ∧
    ruby_run_handshake { mArgs := [], mCount := 0 } =
      [HEvent.rubyInit, HEvent.rubyInitLoadpath, HEvent.swigInit,
       HEvent.rubyOptionsCall 0 [], HEvent.freeArray, HEvent.freeOptions,
       HEvent.rubyRun, HEvent.rubyFinalize] := by
  intro src oracle hopt harr hdup vArgs
  have hcap := captureLoop_eq oracle src 0 [] (fun k _ _ => harr k)
  rw [buildArgs_all_dup oracle hdup] at hcap
  simp only [List.nil_append, Nat.zero_add] at hcap
  refine ⟨?_, by simp, ?_, ?_, ?_, ?_⟩
  · simp [relay_ruby_run, hopt, hcap]
  · simp [ruby_run_handshake]
  · simp [relay_ruby_run, hopt, captureLoop]
  · simp [relay_ruby_run, hopt, captureLoop]
  · simp [ruby_run_handshake]

theorem relay_C3_argument_fidelity_witness :
    relay_ruby_run oracleAllOk true (some ["a.rb", "--seed", "42"]) =
      RunOutcome.spawned
        { mArgs := [some "a.rb", some "--seed", some "42"], mCount := 3 } :=
  (relay_C3_argument_fidelity ["a.rb", "--seed", "42"] oracleAllOk rfl
    (fun _ => rfl) (fun _ => rfl) none).1

/-- C4 (counterexample): it is NOT true that every allocation failure
during marshaling aborts the process: when the `strdup` of an
individual argument fails, `relay_ruby_run` stores the NULL result
without any check and spawns the Ruby thread normally. -/
theorem relay_C4_counterexample : ¬ marshalingFailureFatal := by
  intro h
  have hfail : allocationFails oracleDup0Fails ["a.rb"] :=
    Or.inr (Or.inr ⟨0, by decide, by decide⟩)
  have habn := h oracleDup0Fails ["a.rb"] hfail
  exact absurd habn (by decide)

/-- C4 (amended): failure to allocate the options container is reported
with the exact diagnostic and an abnormal exit, and failure of the
`malloc`/`realloc` growing the argument array aborts abnormally through
the `assert`; but failure of an individual `strdup` string copy is not
detected - the NULL result is stored in the buffer and the spawn
proceeds normally. -/
theorem relay_C4_amended :
    (∀ (oracle : AllocOracle) (vCall : Bool) (vArgs : Option (List String)),
      oracle.options = false →
      relay_ruby_run oracle vCall vArgs =
        RunOutcome.fatalExit
          "error: unable to allocate memory for Ruby's command-line arguments.") ∧
    (∀ (oracle : AllocOracle) (s : String) (rest : List String),
      oracle.options = true → oracle.arrayOk 1 = false →
      relay_ruby_run oracle true (some (s :: rest)) = RunOutcome.assertFail) ∧
    (∀ (oracle : AllocOracle) (src : List String),
      oracle.options = true → (∀ k, oracle.arrayOk k = true) →
      relay_ruby_run oracle true (some src) =
        RunOutcome.spawned
          { mArgs := buildArgs oracle 0 src, mCount := src.length }) := by
  refine ⟨?_, ?_, ?_⟩
  · intro oracle vCall vArgs h
    simp [relay_ruby_run, h]
  · intro oracle s rest hopt harr1
    simp [relay_ruby_run, hopt, captureLoop, harr1]
  · intro oracle src hopt harr
    have hcap := captureLoop_eq oracle src 0 [] (fun k _ _ => harr k)
    simp only [List.nil_append, Nat.zero_add] at hcap
    simp [relay_ruby_run, hopt, hcap]

theorem relay_C4_amended_witness :
    relay_ruby_run
      { options := false, arrayOk := fun _ => true, dupOk := fun _ => true }
      true none =
      RunOutcome.fatalExit
        "error: unable to allocate memory for Ruby's command-line arguments." ∧
    relay_ruby_run oracleDup0Fails true (some ["a.rb"]) =
      RunOutcome.spawned { mArgs := [none], mCount := 1 } := by
  constructor
  · exact relay_C4_amended.1 _ true none rfl
  · have h := relay_C4_amended.2.2 oracleDup0Fails ["a.rb"] rfl (fun _ => rfl)
    simpa [oracleDup0Fails, buildArgs] using h

lemma count_freeString_range (n i : Nat) :
    ((List.range n).map HEvent.freeString).count (HEvent.freeString i) =
      if i < n then 1 else 0 := by
  induction n with
  | zero => simp
  | succ n ih =>
      rw [List.range_succ, List.map_append, List.count_append, ih]
      by_cases h : i = n
      · subst h
        simp [List.count_cons]
      · simp only [List.map_cons, List.map_nil, List.count_cons, List.count_nil,
          beq_iff_eq, HEvent.freeString.injEq]
        split_ifs <;> omega

/-- C5: in the spawned thread's trace, the argument buffer is handed to
`ruby_options` before any release, then every individual string is freed
(each exactly once), then the argument array, then the options
structure (each exactly once), and no event after the releases
references the buffer again. -/
theorem relay_C5_ownership : ∀ (opts : RubyOptions),
    (∃ pre post,
      ruby_run_handshake opts =
        pre ++ ((List.range opts.mCount).map HEvent.freeString ++
                [HEvent.freeArray, HEvent.freeOptions]) ++ post ∧
      HEvent.rubyOptionsCall opts.mCount opts.mArgs ∈ pre ∧
      (∀ e ∈ pre, isFree e = false) ∧
      (∀ e ∈ post, refsBuffer e = false)) ∧
    (∀ i, (ruby_run_handshake opts).count (HEvent.freeString i) =
      if i < opts.mCount then 1 else 0) ∧
    (ruby_run_handshake opts).count HEvent.freeArray = 1 ∧
    (ruby_run_handshake opts).count HEvent.freeOptions = 1 := by
  intro opts
  refine ⟨⟨[HEvent.rubyInit, HEvent.rubyInitLoadpath, HEvent.swigInit,
            HEvent.rubyOptionsCall opts.mCount opts.mArgs],
           [HEvent.rubyRun, HEvent.rubyFinalize], ?_, ?_, ?_, ?_⟩, ?_, ?_, ?_⟩
  · simp [ruby_run_handshake]
  · simp
  · intro e he
    simp only [List.mem_cons, List.not_mem_nil, or_false] at he
    rcases he with rfl | rfl | rfl | rfl <;> rfl
  · intro e he
    simp only [List.mem_cons, List.not_mem_nil, or_false] at he
    rcases he with rfl | rfl <;> rfl
  · intro i
    have hmap := count_freeString_range opts.mCount i
    simp [ruby_run_handshake, List.count_append, List.count_cons, hmap]
  · have : ((List.range opts.mCount).map HEvent.freeString).count HEvent.freeArray = 0 := by
      apply List.count_eq_zero_of_not_mem
      simp
    simp [ruby_run_handshake, List.count_append, List.count_cons, this]
  · have : ((List.range opts.mCount).map HEvent.freeString).count HEvent.freeOptions = 0 := by
      apply List.count_eq_zero_of_not_mem
      simp
    simp [ruby_run_handshake, List.count_append, List.count_cons, this]

/-- C7: in both bootstraps the script-facing handoff entry points are
installed before any script code can run: `ruby_run_handshake` performs
`swig_init` before handing the arguments to `ruby_options` and before
`ruby_run`, and `main_init` binds the module functions `relay_verilog`
and `relay_ruby_reason` before `rb_load_file` and `ruby_run`, never
afterwards. -/
theorem main_C7_install_before_run :
    (∀ (opts : RubyOptions), ∃ rest,
      ruby_run_handshake opts =
        [HEvent.rubyInit, HEvent.rubyInitLoadpath] ++ [HEvent.swigInit] ++ rest ∧
      HEvent.rubyOptionsCall opts.mCount opts.mArgs ∈ rest ∧
      HEvent.rubyRun ∈ rest ∧
      HEvent.swigInit ∉ rest) ∧
    (∀ (env : String → Option String) (f : String),
      env "RUBYVPI_BOOTSTRAP" = some f →
      ∃ rest,
        main_init env =
          [MEvent.rubyInit, MEvent.rubyInitLoadpath, MEvent.initVpi,
           MEvent.defineModuleFunction "relay_verilog",
           MEvent.defineModuleFunction "relay_ruby_reason",
           MEvent.getenvRead "RUBYVPI_BOOTSTRAP"] ++ rest ∧
        MEvent.loadFile f ∈ rest ∧
        MEvent.rubyRun ∈ rest ∧
        (∀ name, MEvent.defineModuleFunction name ∉ rest)) := by
  constructor
  · intro opts
    refine ⟨[HEvent.rubyOptionsCall opts.mCount opts.mArgs] ++
            (List.range opts.mCount).map HEvent.freeString ++
            [HEvent.freeArray, HEvent.freeOptions, HEvent.rubyRun,
             HEvent.rubyFinalize], ?_, ?_, ?_, ?_⟩
    · simp [ruby_run_handshake]
    · simp
    · simp
    · simp
  · intro env f hf
    refine ⟨[MEvent.rubyScript f, MEvent.loadFile f, MEvent.rubyRun,
             MEvent.rubyFinalize], ?_, ?_, ?_, ?_⟩
    · simp [main_init, hf]
    · simp
    · simp
    · simp

theorem main_C7_install_before_run_witness :
    MEvent.loadFile "bench.rb" ∈ main_init (fun _ => some "bench.rb") := by
  obtain ⟨rest, heq, hload, _, _⟩ :=
    main_C7_install_before_run.2 (fun _ => some "bench.rb") "bench.rb" rfl
  rw [heq]
  exact List.mem_append_right _ hload

/-- C8: `main_init` reads no environment variable other than the one
naming the script file; when that variable is unset it prints a
diagnostic and exits abnormally, with nothing executed afterwards; when
it is set to `f` it loads and runs `f` and never reaches the abnormal
exit. -/
theorem main_C8_bootstrap_env : ∀ (env : String → Option String),
    (∀ name, MEvent.getenvRead name ∈ main_init env →
      name = "RUBYVPI_BOOTSTRAP") ∧
    (env "RUBYVPI_BOOTSTRAP" = none →
      ∃ msg, main_init env =
        [MEvent.rubyInit, MEvent.rubyInitLoadpath, MEvent.initVpi,
         MEvent.defineModuleFunction "relay_verilog",
         MEvent.defineModuleFunction "relay_ruby_reason",
         MEvent.getenvRead "RUBYVPI_BOOTSTRAP",
         MEvent.printMsg msg, MEvent.exitFailure]) ∧
    (∀ f, env "RUBYVPI_BOOTSTRAP" = some f →
      MEvent.rubyScript f ∈ main_init env ∧
      MEvent.loadFile f ∈ main_init env ∧
      MEvent.rubyRun ∈ main_init env ∧
      MEvent.exitFailure ∉ main_init env) := by
  intro env
  refine ⟨?_, ?_, ?_⟩
  · intro name hmem
    cases hc : env "RUBYVPI_BOOTSTRAP" with
    | none =>
        simp [main_init, hc] at hmem
        exact hmem
    | some f =>
        simp [main_init, hc] at hmem
        exact hmem
  · intro hnone
    exact ⟨"error: environment variable RUBY_VPI__RUBY_BENCH_FILE is uninitialized.",
      by simp [main_init, hnone]⟩
  · intro f hf
    refine ⟨?_, ?_, ?_, ?_⟩ <;> simp [main_init, hf]

theorem main_C8_bootstrap_env_witness :
    MEvent.exitFailure ∉ main_init (fun _ => some "bench.rb") :=
  ((main_C8_bootstrap_env (fun _ => some "bench.rb")).2.2 "bench.rb" rfl).2.2.2

set_option maxRecDepth 16384 in
/-- C10: the variable `main_init` actually reads is `RUBYVPI_BOOTSTRAP`,
yet whenever it is unset the diagnostic printed right before the
abnormal exit names the different variable `RUBY_VPI__RUBY_BENCH_FILE`:
the exact message contains that name as a substring and does not
contain the name that was read. -/
theorem main_C10_env_name_mismatch :
    (∀ (env : String → Option String) (name : String),
      MEvent.getenvRead name ∈ main_init env → name = "RUBYVPI_BOOTSTRAP") ∧
    (∀ (env : String → Option String),
      env "RUBYVPI_BOOTSTRAP" = none →
      main_init env =
        [MEvent.rubyInit, MEvent.rubyInitLoadpath, MEvent.initVpi,
         MEvent.defineModuleFunction "relay_verilog",
         MEvent.defineModuleFunction "relay_ruby_reason",
         MEvent.getenvRead "RUBYVPI_BOOTSTRAP",
         MEvent.printMsg
           "error: environment variable RUBY_VPI__RUBY_BENCH_FILE is uninitialized.",
         MEvent.exitFailure]) ∧
    "RUBY_VPI__RUBY_BENCH_FILE".toList <:+:
      "error: environment variable RUBY_VPI__RUBY_BENCH_FILE is uninitialized.".toList ∧
    ¬ ("RUBYVPI_BOOTSTRAP".toList <:+:
      "error: environment variable RUBY_VPI__RUBY_BENCH_FILE is uninitialized.".toList) := by
  refine ⟨?_, ?_, by decide, by decide⟩
  · intro env name hmem
    cases hc : env "RUBYVPI_BOOTSTRAP" with
    | none =>
        simp [main_init, hc] at hmem
        exact hmem
    | some f =>
        simp [main_init, hc] at hmem
        exact hmem
  · intro env hnone
    simp [main_init, hnone]

theorem main_C10_env_name_mismatch_witness :
    main_init (fun _ => none) =
      [MEvent.rubyInit, MEvent.rubyInitLoadpath, MEvent.initVpi,
       MEvent.defineModuleFunction "relay_verilog",
       MEvent.defineModuleFunction "relay_ruby_reason",
       MEvent.getenvRead "RUBYVPI_BOOTSTRAP",
       MEvent.printMsg
         "error: environment variable RUBY_VPI__RUBY_BENCH_FILE is uninitialized.",
       MEvent.exitFailure] :=
  main_C10_env_name_mismatch.2.1 (fun _ => none) rfl
